import Mathlib

/-!
Shallow embedding of the StockVision market-signal engine
(`backend/index.js`): indicator library, signal classifier and composite
scorer, metrics facade, correlation-matrix builder, and the backtest
request validation.  JavaScript numbers are modelled as exact rationals
(`ℚ`); `Math.sqrt` is modelled as an explicit function parameter
`sqrtQ : ℚ → ℚ` so that theorems quantify over every model of the square
root.  In `ℚ`, division by zero yields `0`; every place the source could
divide by zero is guarded in the source itself, and each such guard is
translated explicitly.  JavaScript falsiness of a number (`!x`) is
translated as `x = 0`.
-/

namespace StockVision

/-- One OHLCV bar, as produced by `fetchCandles` in `backend/index.js`. -/
structure Candle where
  date : String
  open_ : ℚ
  high : ℚ
  low : ℚ
  close : ℚ
  volume : ℚ
deriving DecidableEq, Repr

/-- JS `values.slice(-k)`: the trailing `k` elements (the whole list when
it is shorter than `k`). -/
def lastN (k : ℕ) (l : List ℚ) : List ℚ :=
  l.drop (l.length - k)

/-- JS `Math.max(...l)` for the non-empty lists the source applies it to
(the empty case, `-Infinity` in JS, is never reached and is mapped to 0). -/
def jsMax (l : List ℚ) : ℚ :=
  match l with
  | [] => 0
  | h :: t => t.foldl max h

/-- JS `Math.min(...l)` for the non-empty lists the source applies it to. -/
def jsMin (l : List ℚ) : ℚ :=
  match l with
  | [] => 0
  | h :: t => t.foldl min h

/-- Embeds `average` from `backend/index.js`: 0 on the empty list, else the mean. -/
def average (values : List ℚ) : ℚ :=
  if values.length = 0 then 0 else values.sum / (values.length : ℚ)

/-- Embeds `clamp` from `backend/index.js`: `Math.min(max, Math.max(min, value))`. -/
def clamp (value lo hi : ℚ) : ℚ :=
  min hi (max lo value)

/-- JS `Math.round`: round half toward positive infinity, which is exactly
the Mathlib `round` on `ℚ` (`round x = ⌊x + 1/2⌋`). -/
def jsRound (q : ℚ) : ℤ :=
  round q

/-- JS `Number(x.toFixed(2))`: round to two decimal places, ties toward
the larger value (ECMA-262 `toFixed` picks the larger candidate on ties). -/
def roundTo2 (q : ℚ) : ℚ :=
  (round (q * 100) : ℚ) / 100

/-- Embeds `computeSma` from `backend/index.js`. -/
def computeSma (values : List ℚ) (period : ℕ) : ℚ :=
  if values.length < period then 0
  else (lastN period values).sum / (period : ℚ)

/-- Embeds `computeStdDev` from `backend/index.js` (population standard
deviation); `Math.sqrt` is the explicit parameter `sqrtQ`. -/
def computeStdDev (sqrtQ : ℚ → ℚ) (values : List ℚ) : ℚ :=
  if values.length = 0 then 0
  else
    let mean := values.sum / (values.length : ℚ)
    let variance := (values.map (fun v => (v - mean) ^ 2)).sum / (values.length : ℚ)
    sqrtQ variance

/-- The consecutive close-to-close differences `closes[i+1] - closes[i]`
walked by the two loops of `computeRsi`. -/
def rsiDiffs (closes : List ℚ) : List ℚ :=
  (closes.drop 1).zipWith (fun c p => c - p) closes

/-- One iteration of the smoothing loop of `computeRsi`:
`avg = (avg*(period-1) + value)/period` for the gain and loss averages. -/
def rsiSmoothStep (period : ℕ) (avgs : ℚ × ℚ) (d : ℚ) : ℚ × ℚ :=
  let gain := if d > 0 then d else 0
  let loss := if d < 0 then -d else 0
  ((avgs.1 * ((period : ℚ) - 1) + gain) / period,
   (avgs.2 * ((period : ℚ) - 1) + loss) / period)

/-- The seed `(avgGain, avgLoss)` of `computeRsi`: gain/loss totals over
the first `period` differences, each divided by `period`. -/
def rsiSeed (closes : List ℚ) (period : ℕ) : ℚ × ℚ :=
  let seed := (rsiDiffs closes).take period
  (((seed.map (fun d => if d > 0 then d else 0)).sum) / period,
   ((seed.map (fun d => if d > 0 then 0 else -d)).sum) / period)

/-- The seeded then exponentially smoothed `(avgGain, avgLoss)` pair of
`computeRsi` from `backend/index.js`. -/
def rsiAvgs (closes : List ℚ) (period : ℕ) : ℚ × ℚ :=
  ((rsiDiffs closes).drop period).foldl (rsiSmoothStep period) (rsiSeed closes period)

/-- Embeds `computeRsi` from `backend/index.js` (Wilder RSI). -/
def computeRsi (closes : List ℚ) (period : ℕ) : ℚ :=
  if closes.length ≤ period then 50
  else
    let avgs := rsiAvgs closes period
    if avgs.2 = 0 then 100
    else 100 - 100 / (1 + avgs.1 / avgs.2)

/-- Embeds `classifyTrend` from `backend/index.js` (`!sma` is `sma = 0`). -/
def classifyTrend (lastClose sma20 sma50 : ℚ) : String :=
  if sma20 = 0 ∨ sma50 = 0 then "Neutral"
  else if lastClose > sma20 ∧ sma20 > sma50 then "Bullish"
  else if lastClose < sma20 ∧ sma20 < sma50 then "Bearish"
  else "Range-bound"

/-- Embeds `classifyMomentum` from `backend/index.js`. -/
def classifyMomentum (rsi : ℚ) : String :=
  if rsi ≥ 70 then "Overbought"
  else if rsi ≤ 30 then "Oversold"
  else if rsi ≥ 55 then "Positive"
  else if rsi ≤ 45 then "Negative"
  else "Neutral"

/-- The per-bar true ranges computed by `computeAtr`: first bar uses
`high - low`, later bars `max(high-low, |high-prevClose|, |low-prevClose|)`. -/
def trueRanges (candles : List Candle) : List ℚ :=
  match candles with
  | [] => []
  | c0 :: rest =>
      (c0.high - c0.low) ::
        rest.zipWith
          (fun c prev =>
            max (c.high - c.low) (max |c.high - prev.close| |c.low - prev.close|))
          candles

/-- Embeds `computeAtr` from `backend/index.js`. -/
def computeAtr (candles : List Candle) (period : ℕ) : ℚ :=
  if candles.length = 0 then 0
  else average (lastN period (trueRanges candles))

/-- Embeds `computePerformance` from `backend/index.js` (`!reference` is
`reference = 0`; the latest close is `closes.at(-1)`). -/
def computePerformance (closes : List ℚ) (lookback : ℕ) : ℚ :=
  if closes.length ≤ lookback then 0
  else
    let reference := closes.getD (closes.length - lookback - 1) 0
    let latest := (closes.getLast?).getD 0
    if reference = 0 then 0
    else (latest - reference) / reference * 100

/-- One step of the `forEach` loop in `computeMaxDrawdown`: the state is
`(peak, maxDrawdown)` with `maxDrawdown` the running (non-positive)
minimum drawdown. -/
def drawdownStep (st : ℚ × ℚ) (close : ℚ) : ℚ × ℚ :=
  let peak := if close > st.1 then close else st.1
  let dd := (close - peak) / peak * 100
  (peak, if dd < st.2 then dd else st.2)

/-- Embeds `computeMaxDrawdown` from `backend/index.js`. -/
def computeMaxDrawdown (closes : List ℚ) : ℚ :=
  match closes with
  | [] => 0
  | c0 :: _ => |(closes.foldl drawdownStep (c0, 0)).2|

/-- Embeds `classifyVolumeTrend` from `backend/index.js`: `volumes.slice(-10)`
versus `volumes.slice(-20, -10)` (`!prior` is `prior = 0`). -/
def classifyVolumeTrend (volumes : List ℚ) : String :=
  if volumes.length < 20 then "Stable"
  else
    let recent := average (lastN 10 volumes)
    let prior := average ((volumes.drop (volumes.length - 20)).take 10)
    if prior = 0 then "Stable"
    else
      let shift := (recent - prior) / prior
      if shift > 15 / 100 then "Increasing"
      else if shift < -(15 / 100) then "Declining"
      else "Stable"

/-- Embeds `classifyRiskLevel` from `backend/index.js`. -/
def classifyRiskLevel (volatility maxDrawdown atrPct : ℚ) : String :=
  if volatility > 45 ∨ maxDrawdown > 30 ∨ atrPct > 5 then "High"
  else if volatility > 28 ∨ maxDrawdown > 18 ∨ atrPct > 3 then "Medium"
  else "Low"

/-- The argument object of `buildSignalScore` in `backend/index.js`. -/
structure ScoreInput where
  trend : String
  momentum : String
  performance20 : ℚ
  volatility : ℚ
  distanceToResistancePct : ℚ
  distanceToSupportPct : ℚ
  volumeTrend : String
deriving DecidableEq, Repr

/-- Embeds `buildSignalScore` from `backend/index.js`: additive nudges around 50,
then `Math.round(clamp(score, 0, 100))`. -/
def buildSignalScore (x : ScoreInput) : ℚ :=
  let score : ℚ := 50
  let score := if x.trend = "Bullish" then score + 12 else score
  let score := if x.trend = "Bearish" then score - 12 else score
  let score := if x.momentum = "Positive" then score + 8 else score
  let score := if x.momentum = "Negative" then score - 8 else score
  let score := if x.momentum = "Oversold" then score + 5 else score
  let score := if x.momentum = "Overbought" then score - 5 else score
  let score := score + clamp (x.performance20 * (7 / 10)) (-14) 14
  let score := score - clamp ((x.volatility - 25) * (4 / 10)) 0 14
  let score := if x.distanceToResistancePct < 2 then score - 6 else score
  let score := if x.distanceToSupportPct < 2 then score + 4 else score
  let score := if x.volumeTrend = "Increasing" then score + 4 else score
  let score := if x.volumeTrend = "Declining" then score - 4 else score
  ((jsRound (clamp score 0 100) : ℤ) : ℚ)

/-- The argument object of `buildSignalFlags` in `backend/index.js`. -/
structure FlagsInput where
  trend : String
  momentum : String
  performance5 : ℚ
  performance20 : ℚ
  atrPct : ℚ
  distanceToResistancePct : ℚ
  distanceToSupportPct : ℚ
  volumeTrend : String
deriving DecidableEq, Repr

/-- Embeds `buildSignalFlags` from `backend/index.js`: sequential conditional
pushes, then `flags.slice(0, 6)`. -/
def buildSignalFlags (x : FlagsInput) : List String :=
  let flags : List String := []
  let flags := if x.trend = "Bullish" then flags ++ ["Trend aligned up"] else flags
  let flags := if x.trend = "Bearish" then flags ++ ["Trend pressure down"] else flags
  let flags := if x.momentum = "Overbought" then flags ++ ["RSI overbought"] else flags
  let flags := if x.momentum = "Oversold" then flags ++ ["RSI oversold"] else flags
  let flags := if x.performance20 > 10 then flags ++ ["Strong 1M relative strength"] else flags
  let flags := if x.performance20 < -10 then flags ++ ["Weak 1M performance"] else flags
  let flags := if x.performance5 > 4 then flags ++ ["Short-term acceleration"] else flags
  let flags := if x.performance5 < -4 then flags ++ ["Short-term pullback"] else flags
  let flags := if x.distanceToResistancePct < 2 then flags ++ ["Trading near resistance"] else flags
  let flags := if x.distanceToSupportPct < 2 then flags ++ ["Trading near support"] else flags
  let flags := if x.atrPct > 3 then flags ++ ["High ATR regime"] else flags
  let flags := if x.volumeTrend = "Increasing" then flags ++ ["Volume expansion"] else flags
  flags.take 6

/-- The flag conditions in the evaluation order fixed by the spec (§4.2):
trend direction, RSI extremes, 20-bar relative strength beyond ±10%, 5-bar
acceleration beyond ±4%, proximity to resistance then support within 2%,
ATR% above 3, increasing volume.  Each condition contributes its flag when
it fires; this is the spec-side ordered candidate list against which the
source function `buildSignalFlags` is compared. -/
def specOrderedFlags (x : FlagsInput) : List String :=
  (if x.trend = "Bullish" then ["Trend aligned up"] else []) ++
  (if x.trend = "Bearish" then ["Trend pressure down"] else []) ++
  (if x.momentum = "Overbought" then ["RSI overbought"] else []) ++
  (if x.momentum = "Oversold" then ["RSI oversold"] else []) ++
  (if x.performance20 > 10 then ["Strong 1M relative strength"] else []) ++
  (if x.performance20 < -10 then ["Weak 1M performance"] else []) ++
  (if x.performance5 > 4 then ["Short-term acceleration"] else []) ++
  (if x.performance5 < -4 then ["Short-term pullback"] else []) ++
  (if x.distanceToResistancePct < 2 then ["Trading near resistance"] else []) ++
  (if x.distanceToSupportPct < 2 then ["Trading near support"] else []) ++
  (if x.atrPct > 3 then ["High ATR regime"] else []) ++
  (if x.volumeTrend = "Increasing" then ["Volume expansion"] else [])

/-- The daily-return series used by `deriveMetrics` and
`buildCorrelationMatrix`: `closes.slice(1).map((c, i) => (c - closes[i]) / closes[i])`
followed by `.filter(Number.isFinite)`.  Over `ℚ` the result is finite
exactly when the prior close is non-zero, so the JS finiteness filter is
the filter on the prior close being non-zero. -/
def dailyReturns (closes : List ℚ) : List ℚ :=
  ((((closes.drop 1).zip closes).filter (fun p => p.2 ≠ 0)).map
    (fun p => (p.1 - p.2) / p.2))

/-- The immutable metrics snapshot assembled by `deriveMetrics`. -/
structure MetricsSnapshot where
  lastClose : ℚ
  changePct : ℚ
  high : ℚ
  low : ℚ
  avgVolume : ℚ
  volatility : ℚ
  rsi14 : ℚ
  sma20 : ℚ
  sma50 : ℚ
  trend : String
  momentum : String
  support : ℚ
  resistance : ℚ
  atr14 : ℚ
  atrPct : ℚ
  performance5 : ℚ
  performance20 : ℚ
  maxDrawdown : ℚ
  volumeTrend : String
  distanceToSupportPct : ℚ
  distanceToResistancePct : ℚ
  riskLevel : String
  signalScore : ℚ
  signalFlags : List String
deriving DecidableEq, Repr

/-- The fixed neutral snapshot `deriveMetrics` returns for an empty candle
array (`backend/index.js`, the `!candles?.length` branch). -/
def emptyMetricsSnapshot : MetricsSnapshot where
  lastClose := 0
  changePct := 0
  high := 0
  low := 0
  avgVolume := 0
  volatility := 0
  rsi14 := 50
  sma20 := 0
  sma50 := 0
  trend := "Neutral"
  momentum := "Neutral"
  support := 0
  resistance := 0
  atr14 := 0
  atrPct := 0
  performance5 := 0
  performance20 := 0
  maxDrawdown := 0
  volumeTrend := "Stable"
  distanceToSupportPct := 0
  distanceToResistancePct := 0
  riskLevel := "Low"
  signalScore := 50
  signalFlags := []

/-- Embeds `deriveMetrics` from `backend/index.js`.  `Math.sqrt` (used for the
annualized volatility) is the explicit parameter `sqrtQ`.  JS value
recovery chains are translated literally: `closes.at(-1) || 0`,
`closes.at(-2) || lastClose || 1`, and the `lastClose ? _ : 0` guards. -/
def deriveMetrics (sqrtQ : ℚ → ℚ) (candles : List Candle) : MetricsSnapshot :=
  if candles.length = 0 then emptyMetricsSnapshot
  else
    let closes := candles.map Candle.close
    let volumes := candles.map Candle.volume
    let highs := candles.map Candle.high
    let lows := candles.map Candle.low
    let lastClose := (closes.getLast?).getD 0
    let at2 := if 2 ≤ closes.length then closes.getD (closes.length - 2) 0 else 0
    let prevClose := if at2 = 0 then (if lastClose = 0 then 1 else lastClose) else at2
    let changePct := (lastClose - prevClose) / prevClose * 100
    let high := jsMax highs
    let low := jsMin lows
    let avgVolume := volumes.sum / (volumes.length : ℚ)
    let volatility := computeStdDev sqrtQ (dailyReturns closes) * sqrtQ 252 * 100
    let rsi14 := computeRsi closes 14
    let sma20 := computeSma closes 20
    let sma50 := computeSma closes 50
    let trend := classifyTrend lastClose sma20 sma50
    let momentum := classifyMomentum rsi14
    let support := jsMin (lastN 20 lows)
    let resistance := jsMax (lastN 20 highs)
    let atr14 := computeAtr candles 14
    let atrPct := if lastClose = 0 then 0 else atr14 / lastClose * 100
    let performance5 := computePerformance closes 5
    let performance20 := computePerformance closes 20
    let maxDrawdown := computeMaxDrawdown closes
    let volumeTrend := classifyVolumeTrend volumes
    let distanceToSupportPct :=
      if lastClose = 0 then 0 else (lastClose - support) / lastClose * 100
    let distanceToResistancePct :=
      if lastClose = 0 then 0 else (resistance - lastClose) / lastClose * 100
    let signalScore := buildSignalScore
      ⟨trend, momentum, performance20, volatility,
        distanceToResistancePct, distanceToSupportPct, volumeTrend⟩
    let riskLevel := classifyRiskLevel volatility maxDrawdown atrPct
    let signalFlags := buildSignalFlags
      ⟨trend, momentum, performance5, performance20, atrPct,
        distanceToResistancePct, distanceToSupportPct, volumeTrend⟩
    { lastClose := lastClose
      changePct := changePct
      high := high
      low := low
      avgVolume := avgVolume
      volatility := volatility
      rsi14 := rsi14
      sma20 := sma20
      sma50 := sma50
      trend := trend
      momentum := momentum
      support := support
      resistance := resistance
      atr14 := atr14
      atrPct := atrPct
      performance5 := performance5
      performance20 := performance20
      maxDrawdown := maxDrawdown
      volumeTrend := volumeTrend
      distanceToSupportPct := distanceToSupportPct
      distanceToResistancePct := distanceToResistancePct
      riskLevel := riskLevel
      signalScore := signalScore
      signalFlags := signalFlags }

/-- The length `Math.min(minLength, 90)` of the aligned trailing slices
taken by `computeCorrelation`. -/
def corrSliceLen (seriesA seriesB : List ℚ) : ℕ :=
  min (min seriesA.length seriesB.length) 90

/-- The pair of aligned trailing slices used by `computeCorrelation`:
`series.slice(-Math.min(minLength, 90))` for both series. -/
def corrSlices (seriesA seriesB : List ℚ) : List ℚ × List ℚ :=
  (lastN (corrSliceLen seriesA seriesB) seriesA,
   lastN (corrSliceLen seriesA seriesB) seriesB)

/-- The Pearson numerator of `computeCorrelation`: `Σ (a[i]-meanA)(b[i]-meanB)`. -/
def pearsonNum (a b : List ℚ) : ℚ :=
  (List.zipWith (fun x y => (x - average a) * (y - average b)) a b).sum

/-- One of the two Pearson denominator terms of `computeCorrelation`:
`Σ (x-mean)²` over one slice. -/
def pearsonDenom (a : List ℚ) : ℚ :=
  (a.map (fun x => (x - average a) * (x - average a))).sum

/-- Embeds `computeCorrelation` from `backend/index.js`.  The guards are kept as
written: fewer than 8 overlapping points returns 0, and a zero
`Math.sqrt(denomA * denomB)` (the `!denominator` check) returns 0. -/
def computeCorrelation (sqrtQ : ℚ → ℚ) (seriesA seriesB : List ℚ) : ℚ :=
  if min seriesA.length seriesB.length < 8 then 0
  else
    let a := lastN (corrSliceLen seriesA seriesB) seriesA
    let b := lastN (corrSliceLen seriesA seriesB) seriesB
    let denominator := sqrtQ (pearsonDenom a * pearsonDenom b)
    if denominator = 0 then 0
    else pearsonNum a b / denominator

/-- The `returnsMap` of `buildCorrelationMatrix`: the daily-return series
of the candles stored under a ticker (`dataByTicker[ticker] || []`).
`dataByTicker` is modelled as an association list in key order. -/
def returnsOf (data : List (String × List Candle)) (t : String) : List ℚ :=
  dailyReturns ((((data.find? (fun p => p.1 == t)).map Prod.snd).getD []).map Candle.close)

/-- The coefficient written into both mirror cells for one ticker pair:
`left === right ? 1 : computeCorrelation(...)`, then `Number(corr.toFixed(2))`. -/
def corrEntry (sqrtQ : ℚ → ℚ) (rm : String → List ℚ) (left right : String) : ℚ :=
  roundTo2 (if left = right then 1 else computeCorrelation sqrtQ (rm left) (rm right))

/-- Pointwise update of one cell of the (partial) correlation matrix:
`matrix[a][b] = v`. -/
def updMatrix (M : String → String → Option ℚ) (a b : String) (v : ℚ)
    (x y : String) : Option ℚ :=
  if x = a ∧ y = b then some v else M x y

/-- The ordered index pairs `(leftIndex, rightIndex)` walked by the nested
loops of `buildCorrelationMatrix` (`rightIndex` from `leftIndex` to the
end), carrying the ticker names at those indices. -/
def tickerPairs (ts : List String) : List (String × String) :=
  (List.range ts.length).flatMap fun i =>
    (List.range' i (ts.length - i)).map fun j => (ts.getD i "", ts.getD j "")

/-- The body of the nested loops of `buildCorrelationMatrix` for one pair:
compute the (rounded) coefficient and write it into both mirror cells. -/
def corrPairStep (sqrtQ : ℚ → ℚ) (rm : String → List ℚ)
    (M : String → String → Option ℚ) (p : String × String) :
    String → String → Option ℚ :=
  let v := corrEntry sqrtQ rm p.1 p.2
  updMatrix (updMatrix M p.1 p.2 v) p.2 p.1 v

/-- Embeds `buildCorrelationMatrix` from `backend/index.js`, as the final cell
assignment function: cells never written stay `none` (absent key). -/
def buildCorrelationMatrix (sqrtQ : ℚ → ℚ) (data : List (String × List Candle)) :
    String → String → Option ℚ :=
  (tickerPairs (data.map Prod.fst)).foldl
    (corrPairStep sqrtQ (returnsOf data))
    (fun _ _ => none)

/-- One trade record of the backtest simulator (spec §3, BacktestResult). -/
structure Trade where
  type : String
  date : String
  price : ℚ
  shares : ℚ
  fee : ℚ
  pnl : Option ℚ
deriving DecidableEq, Repr

/-- The running state of the crossover simulation (spec §4.5): `FLAT` is
`shares = 0`, `LONG` is `shares > 0`. -/
structure BacktestState where
  cash : ℚ
  shares : ℚ
  entryValue : ℚ
  trades : List Trade
  equityCurve : List (String × ℚ × ℚ)
deriving DecidableEq, Repr

/-- The fast/slow SMA value at bar `i`, over the closes up to and
including that bar (spec §4.5: bars before a full window are skipped for
signal purposes but still feed the rolling windows). -/
def smaAt (closes : List ℚ) (period : ℕ) (i : ℕ) : ℚ :=
  computeSma (closes.take (i + 1)) period

/-- Modelled from the spec: one per-bar transition of the backtest
simulator of §4.5 (the `/api/backtest` route handler is not among the
repository sources; only its frontend caller is).  Entry on a golden
cross (`fast ≤ slow` on the prior bar, `fast > slow` on the current bar)
converts all cash into shares after a `cash × feeRate` fee; exit on a
death cross (`fast ≥ slow` then `fast < slow`) sells everything, charges
the fee on gross proceeds, and realizes `pnl = net − entryValue`; every
bar appends `cash + shares × close` to the equity curve. -/
def backtestStep (candles : List Candle) (fast slow : ℕ) (feeRate : ℚ)
    (st : BacktestState) (i : ℕ) : BacktestState :=
  let closes := candles.map Candle.close
  let c := candles.getD i ⟨"", 0, 0, 0, 0, 0⟩
  let close := c.close
  let signalReady := slow ≤ i
  let fPrev := smaAt closes fast (i - 1)
  let sPrev := smaAt closes slow (i - 1)
  let fCur := smaAt closes fast i
  let sCur := smaAt closes slow i
  let st :=
    if signalReady ∧ st.shares = 0 ∧ fPrev ≤ sPrev ∧ fCur > sCur ∧ close > 0 then
      let fee := st.cash * feeRate
      let spendable := st.cash - fee
      let shares := spendable / close
      { st with
          cash := 0
          shares := shares
          entryValue := spendable + fee
          trades := st.trades ++ [⟨"BUY", c.date, close, shares, fee, none⟩] }
    else if signalReady ∧ st.shares > 0 ∧ fPrev ≥ sPrev ∧ fCur < sCur then
      let gross := st.shares * close
      let fee := gross * feeRate
      let net := gross - fee
      let pnl := net - st.entryValue
      { st with
          cash := net
          shares := 0
          trades := st.trades ++ [⟨"SELL", c.date, close, st.shares, fee, some pnl⟩] }
    else st
  { st with equityCurve := st.equityCurve ++ [(c.date, st.cash + st.shares * close, close)] }

/-- Modelled from the spec: the full crossover simulation of §4.5, started
`FLAT` with `cash = initialCapital` and stepped over every bar in time
order. -/
def simulateBacktest (candles : List Candle) (fast slow : ℕ)
    (initialCapital feeRate : ℚ) : BacktestState :=
  (List.range candles.length).foldl
    (backtestStep candles fast slow feeRate)
    ⟨initialCapital, 0, 0, [], []⟩

/-- Modelled from the spec: the caller-facing `runBacktest` entry of §4.5
/ §6 / §8 (`/api/backtest`, whose backend handler is not in the
repository sources).  It validates `2 ≤ fastPeriod < slowPeriod`,
`initialCapital > 0` and `slowPeriod + 10` bars of history and rejects
the request before any simulation work begins (the `.error` branches
never touch `simulateBacktest`, so a rejected request leaves no partial
run). -/
def runBacktest (candles : List Candle) (fast slow : ℕ)
    (initialCapital feeBps : ℚ) : Except String BacktestState :=
  if ¬(2 ≤ fast ∧ fast < slow) then
    .error "Use valid fast and slow periods, with fast smaller than slow."
  else if initialCapital ≤ 0 then
    .error "Initial capital must be greater than zero."
  else if candles.length < slow + 10 then
    .error "Not enough candle history for the requested slow period."
  else
    .ok (simulateBacktest candles fast slow initialCapital (feeBps / 10000))

/-! ## Helper lemmas -/

theorem ite_append_singleton (c : Prop) [Decidable c] (l : List String) (s : String) :
    (if c then l ++ [s] else l) = l ++ (if c then [s] else []) := by
  split <;> simp

/-! ## Claim theorems -/

/-- C1: for the empty candle sequence, `deriveMetrics` returns exactly the
documented neutral snapshot — `signalScore` 50, `rsi14` 50, trend and
momentum `"Neutral"`, `riskLevel` `"Low"`, every other numeric field 0,
and an empty `signalFlags` list (with `volumeTrend` `"Stable"`). -/
theorem deriveMetrics_empty_neutral (sqrtQ : ℚ → ℚ) :
    (deriveMetrics sqrtQ []).signalScore = 50 ∧
    (deriveMetrics sqrtQ []).rsi14 = 50 ∧
    (deriveMetrics sqrtQ []).trend = "Neutral" ∧
    (deriveMetrics sqrtQ []).momentum = "Neutral" ∧
    (deriveMetrics sqrtQ []).riskLevel = "Low" ∧
    (deriveMetrics sqrtQ []).volumeTrend = "Stable" ∧
    (deriveMetrics sqrtQ []).lastClose = 0 ∧
    (deriveMetrics sqrtQ []).changePct = 0 ∧
    (deriveMetrics sqrtQ []).high = 0 ∧
    (deriveMetrics sqrtQ []).low = 0 ∧
    (deriveMetrics sqrtQ []).avgVolume = 0 ∧
    (deriveMetrics sqrtQ []).volatility = 0 ∧
    (deriveMetrics sqrtQ []).sma20 = 0 ∧
    (deriveMetrics sqrtQ []).sma50 = 0 ∧
    (deriveMetrics sqrtQ []).support = 0 ∧
    (deriveMetrics sqrtQ []).resistance = 0 ∧
    (deriveMetrics sqrtQ []).atr14 = 0 ∧
    (deriveMetrics sqrtQ []).atrPct = 0 ∧
    (deriveMetrics sqrtQ []).performance5 = 0 ∧
    (deriveMetrics sqrtQ []).performance20 = 0 ∧
    (deriveMetrics sqrtQ []).maxDrawdown = 0 ∧
    (deriveMetrics sqrtQ []).distanceToSupportPct = 0 ∧
    (deriveMetrics sqrtQ []).distanceToResistancePct = 0 ∧
    (deriveMetrics sqrtQ []).signalFlags = [] := by
  refine ⟨rfl, rfl, rfl, rfl, rfl, rfl, rfl, rfl, rfl, rfl, rfl, rfl, rfl, rfl,
    rfl, rfl, rfl, rfl, rfl, rfl, rfl, rfl, rfl, rfl⟩

/-- C8: the flag builder returns exactly the first (up to) six flags whose
conditions fire, in the fixed evaluation order given by the spec
(`specOrderedFlags`), and therefore never more than 6 entries. -/
theorem buildSignalFlags_ordered_capped (x : FlagsInput) :
    buildSignalFlags x = (specOrderedFlags x).take 6 ∧
    (buildSignalFlags x).length ≤ 6 := by
  have hflags : buildSignalFlags x = (specOrderedFlags x).take 6 := by
    simp only [buildSignalFlags, specOrderedFlags, ite_append_singleton,
      List.nil_append]
  refine ⟨hflags, ?_⟩
  rw [hflags]
  simp [List.length_take]

/-- C9: `runBacktest` rejects a request with too little history for the
requested slow period (fewer than `slowPeriod + 10` bars), an invalid
period ordering (not `2 ≤ fastPeriod < slowPeriod`), or non-positive
initial capital, before any simulation work begins: the result is an
error and carries no (partial) run. -/
theorem runBacktest_rejects (candles : List Candle) (fast slow : ℕ)
    (capital feeBps : ℚ)
    (h : candles.length < slow + 10 ∨ ¬(2 ≤ fast ∧ fast < slow) ∨ capital ≤ 0) :
    ∃ msg, runBacktest candles fast slow capital feeBps = .error msg := by
  unfold runBacktest
  by_cases h1 : 2 ≤ fast ∧ fast < slow
  · rw [if_neg (not_not_intro h1)]
    by_cases h2 : capital ≤ 0
    · rw [if_pos h2]
      exact ⟨_, rfl⟩
    · rw [if_neg h2]
      have h3 : candles.length < slow + 10 := by
        rcases h with h | h | h
        · exact h
        · exact absurd h1 h
        · exact absurd h h2
      rw [if_pos h3]
      exact ⟨_, rfl⟩
  · rw [if_pos h1]
    exact ⟨_, rfl⟩

/-- Witness for C9: a 40-candle series with `slowPeriod = 50` is rejected. -/
theorem runBacktest_rejects_witness :
    ∃ msg, runBacktest (List.replicate 40 ⟨"", 1, 1, 1, 1, 1⟩) 20 50 10000 5 =
      .error msg :=
  runBacktest_rejects _ _ _ _ _ (Or.inl (by simp))

/-- C10: whenever at least 20 volume points exist and the mean of the
preceding 10 volumes is 0, `classifyVolumeTrend` returns `"Stable"`
instead of dividing by the zero prior mean, and the classifier is total:
it always returns one of the three labels. -/
theorem classifyVolumeTrend_zero_prior_stable (volumes : List ℚ) :
    (20 ≤ volumes.length →
      average ((volumes.drop (volumes.length - 20)).take 10) = 0 →
      classifyVolumeTrend volumes = "Stable") ∧
    (classifyVolumeTrend volumes = "Increasing" ∨
      classifyVolumeTrend volumes = "Declining" ∨
      classifyVolumeTrend volumes = "Stable") := by
  constructor
  · intro h20 hprior
    unfold classifyVolumeTrend
    rw [if_neg (by omega)]
    simp only [hprior, ite_true]
  · simp only [classifyVolumeTrend]
    split_ifs <;> simp

/-- Witness for C10: 10 zero volumes followed by 10 positive volumes have a
zero prior-10 mean and classify as `"Stable"`. -/
theorem classifyVolumeTrend_zero_prior_stable_witness :
    classifyVolumeTrend (List.replicate 10 0 ++ List.replicate 10 1) = "Stable" :=
  (classifyVolumeTrend_zero_prior_stable _).1 (by simp)
    (by simp [average, List.take_append_eq_append_take])

theorem drawdown_fold_monotone :
    ∀ (l : List ℚ) (p : ℚ), List.Chain' (· ≤ ·) (p :: l) →
      (l.foldl drawdownStep (p, 0)).2 = 0 := by
  intro l
  induction l with
  | nil => intro p _; rfl
  | cons c t ih =>
    intro p hchain
    obtain ⟨hpc, hct⟩ := List.chain'_cons.mp hchain
    have hstep : drawdownStep (p, 0) c = (c, 0) := by
      unfold drawdownStep
      by_cases hgt : c > p
      · simp [hgt]
      · have hcp : c = p := le_antisymm (not_lt.mp hgt) hpc
        simp [hgt, hcp]
    rw [List.foldl_cons, hstep]
    exact ih c hct

/-- C7: the max-drawdown computation is always non-negative, is 0 on the
empty closes sequence, and is 0 on every monotonically non-decreasing
closes sequence. -/
theorem computeMaxDrawdown_nonneg_mono (closes : List ℚ) :
    0 ≤ computeMaxDrawdown closes ∧
    (closes = [] → computeMaxDrawdown closes = 0) ∧
    (List.Chain' (· ≤ ·) closes → computeMaxDrawdown closes = 0) := by
  refine ⟨?_, ?_, ?_⟩
  · match closes with
    | [] => exact le_refl 0
    | c0 :: rest => exact abs_nonneg _
  · intro h; subst h; rfl
  · intro hmono
    match closes, hmono with
    | [], _ => rfl
    | c0 :: rest, hmono =>
      have hchain : List.Chain' (· ≤ ·) (c0 :: c0 :: rest) :=
        List.chain'_cons.mpr ⟨le_refl c0, hmono⟩
      show |(List.foldl drawdownStep (c0, 0) (c0 :: rest)).2| = 0
      rw [List.foldl_cons]
      have hstep : drawdownStep (c0, 0) c0 = (c0, 0) := by
        unfold drawdownStep
        simp
      rw [hstep, drawdown_fold_monotone rest c0 (List.chain'_cons.mp hchain).2]
      exact abs_zero

/-- Witness for C7: evaluated on a falling series, the empty series, and a
rising series. -/
theorem computeMaxDrawdown_nonneg_mono_witness :
    0 ≤ computeMaxDrawdown [3, 1, 2] ∧
    computeMaxDrawdown ([] : List ℚ) = 0 ∧
    computeMaxDrawdown [1, 2, 3] = 0 :=
  ⟨(computeMaxDrawdown_nonneg_mono [3, 1, 2]).1,
   (computeMaxDrawdown_nonneg_mono []).2.1 rfl,
   (computeMaxDrawdown_nonneg_mono [1, 2, 3]).2.2 (by norm_num [List.chain'_cons])⟩

theorem rsiSeed_nonneg (closes : List ℚ) (period : ℕ) :
    0 ≤ (rsiSeed closes period).1 ∧ 0 ≤ (rsiSeed closes period).2 := by
  constructor <;>
  · refine div_nonneg (List.sum_nonneg ?_) (by positivity)
    intro x hx
    simp only [List.mem_map] at hx
    obtain ⟨d, _, rfl⟩ := hx
    split <;> linarith

theorem rsiSmooth_fold_nonneg (period : ℕ) :
    ∀ (l : List ℚ) (st : ℚ × ℚ), 0 ≤ st.1 → 0 ≤ st.2 →
      0 ≤ (l.foldl (rsiSmoothStep period) st).1 ∧
      0 ≤ (l.foldl (rsiSmoothStep period) st).2 := by
  intro l
  induction l with
  | nil => exact fun st h1 h2 => ⟨h1, h2⟩
  | cons d t ih =>
    intro st h1 h2
    rw [List.foldl_cons]
    have hkey : ∀ (a g : ℚ), 0 ≤ a → 0 ≤ g →
        0 ≤ (a * ((period : ℚ) - 1) + g) / period := by
      intro a g ha hg
      rcases Nat.eq_zero_or_pos period with hp | hp
      · subst hp; simp
      · have hp1 : (1 : ℚ) ≤ (period : ℚ) := by exact_mod_cast hp
        refine div_nonneg ?_ (by linarith)
        have := mul_nonneg ha (by linarith : (0 : ℚ) ≤ (period : ℚ) - 1)
        linarith
    refine ih _ (hkey _ _ h1 ?_) (hkey _ _ h2 ?_)
    · split <;> linarith
    · split <;> linarith

theorem rsiAvgs_nonneg (closes : List ℚ) (period : ℕ) :
    0 ≤ (rsiAvgs closes period).1 ∧ 0 ≤ (rsiAvgs closes period).2 :=
  rsiSmooth_fold_nonneg period _ _ (rsiSeed_nonneg closes period).1
    (rsiSeed_nonneg closes period).2

theorem computeRsi_mem_bounds (closes : List ℚ) (period : ℕ) :
    0 ≤ computeRsi closes period ∧ computeRsi closes period ≤ 100 := by
  simp only [computeRsi]
  split_ifs with h1 h2
  · norm_num
  · norm_num
  · obtain ⟨hg, hl⟩ := rsiAvgs_nonneg closes period
    have hl0 : 0 < (rsiAvgs closes period).2 := lt_of_le_of_ne hl (Ne.symm h2)
    have hrs : 0 ≤ (rsiAvgs closes period).1 / (rsiAvgs closes period).2 :=
      div_nonneg hg hl
    have hd1 : 100 / (1 + (rsiAvgs closes period).1 / (rsiAvgs closes period).2) ≤ 100 :=
      div_le_self (by norm_num) (by linarith)
    have hd0 : 0 < 100 / (1 + (rsiAvgs closes period).1 / (rsiAvgs closes period).2) :=
      div_pos (by norm_num) (by linarith)
    constructor <;> linarith

/-- C5: the RSI computation returns 50 whenever the closes sequence is no
longer than the period; whenever it is longer and the smoothed average
loss after the seeding and smoothing recurrence is exactly 0 it returns
100; and in the remaining case the average loss is strictly positive and
the divisor `1 + avgGain/avgLoss` is strictly positive, so no division by
zero is ever performed. -/
theorem computeRsi_degenerate_policy (closes : List ℚ) (period : ℕ) :
    (closes.length ≤ period → computeRsi closes period = 50) ∧
    (period < closes.length → (rsiAvgs closes period).2 = 0 →
      computeRsi closes period = 100) ∧
    (period < closes.length → (rsiAvgs closes period).2 ≠ 0 →
      0 < (rsiAvgs closes period).2 ∧
      0 < 1 + (rsiAvgs closes period).1 / (rsiAvgs closes period).2 ∧
      computeRsi closes period =
        100 - 100 / (1 + (rsiAvgs closes period).1 / (rsiAvgs closes period).2)) := by
  refine ⟨fun h => by simp [computeRsi, h], fun h hz => ?_, fun h hnz => ?_⟩
  · have hc : ¬ closes.length ≤ period := not_le.mpr h
    simp [computeRsi, hc, hz]
  · obtain ⟨hg, hl⟩ := rsiAvgs_nonneg closes period
    have hl0 : 0 < (rsiAvgs closes period).2 := lt_of_le_of_ne hl (Ne.symm hnz)
    have hrs : 0 ≤ (rsiAvgs closes period).1 / (rsiAvgs closes period).2 :=
      div_nonneg hg hl
    have hc : ¬ closes.length ≤ period := not_le.mpr h
    exact ⟨hl0, by linarith, by simp [computeRsi, hc, hnz]⟩

/-- Witness for C5: a 3-close series at period 14 yields the neutral 50,
and a 15-close strictly rising series has zero smoothed loss and yields 100. -/
theorem computeRsi_degenerate_policy_witness :
    computeRsi [1, 2, 3] 14 = 50 ∧
    computeRsi [1, 2, 3, 4, 5, 6, 7, 8, 9, 10, 11, 12, 13, 14, 15] 14 = 100 :=
  ⟨(computeRsi_degenerate_policy [1, 2, 3] 14).1 (by norm_num),
   (computeRsi_degenerate_policy _ 14).2.1 (by norm_num)
     (by norm_num [rsiAvgs, rsiSeed, rsiDiffs])⟩

theorem rsiDiffs_cons (a b : ℚ) (t : List ℚ) :
    rsiDiffs (a :: b :: t) = (b - a) :: rsiDiffs (b :: t) := rfl

theorem rsiDiffs_pos (closes : List ℚ) (h : List.Chain' (· < ·) closes) :
    ∀ d ∈ rsiDiffs closes, 0 < d := by
  induction closes with
  | nil => intro d hd; simp [rsiDiffs] at hd
  | cons a t ih =>
    cases t with
    | nil => intro d hd; simp [rsiDiffs] at hd
    | cons b t' =>
      intro d hd
      rw [rsiDiffs_cons] at hd
      rcases List.mem_cons.mp hd with rfl | hmem
      · have hab : a < b := (List.chain'_cons.mp h).1
        linarith
      · exact ih (List.chain'_cons.mp h).2 d hmem

theorem rsiSmooth_fold_loss_zero (period : ℕ) :
    ∀ (l : List ℚ), (∀ d ∈ l, 0 < d) → ∀ g : ℚ,
      (l.foldl (rsiSmoothStep period) (g, 0)).2 = 0 := by
  intro l
  induction l with
  | nil => intro _ g; rfl
  | cons d t ih =>
    intro hpos g
    rw [List.foldl_cons]
    have hd : 0 < d := hpos d (List.mem_cons_self _ _)
    have hstep : rsiSmoothStep period (g, 0) d =
        ((g * ((period : ℚ) - 1) + d) / period, 0) := by
      unfold rsiSmoothStep
      simp [hd, asymm hd]
    rw [hstep]
    exact ih (fun d' hd' => hpos d' (List.mem_cons_of_mem _ hd')) _

theorem rsiSeed_loss_zero (closes : List ℚ) (period : ℕ)
    (h : ∀ d ∈ rsiDiffs closes, 0 < d) : (rsiSeed closes period).2 = 0 := by
  unfold rsiSeed
  have hz : ∀ x ∈ ((rsiDiffs closes).take period).map
      (fun d => if d > 0 then 0 else -d), x = (0 : ℚ) := by
    intro x hx
    simp only [List.mem_map] at hx
    obtain ⟨d, hd, rfl⟩ := hx
    have := h d (List.take_subset _ _ hd)
    simp [this]
  simp only [List.sum_eq_zero hz, zero_div]

/-- C4 counterexample: a 14-bar strictly rising closes series falls into
the `closes.length <= period` branch of `computeRsi`, which returns the
neutral 50, not 100 — the claim as stated is false on the code. -/
theorem computeRsi_14bar_allgains_cex :
    List.Chain' (· < ·)
      ([1, 2, 3, 4, 5, 6, 7, 8, 9, 10, 11, 12, 13, 14] : List ℚ) ∧
    ([1, 2, 3, 4, 5, 6, 7, 8, 9, 10, 11, 12, 13, 14] : List ℚ).length = 14 ∧
    computeRsi [1, 2, 3, 4, 5, 6, 7, 8, 9, 10, 11, 12, 13, 14] 14 ≠ 100 := by
  refine ⟨by norm_num [List.chain'_cons], by norm_num, ?_⟩
  have h50 : computeRsi [1, 2, 3, 4, 5, 6, 7, 8, 9, 10, 11, 12, 13, 14] 14 = 50 := by
    simp [computeRsi]
  rw [h50]
  norm_num

/-- C4 (amended): for a closes sequence of more than 14 bars in which
every close is strictly higher than the previous close, the RSI
computation with period 14 returns exactly 100. -/
theorem computeRsi_allgains_100 (closes : List ℚ)
    (hlen : 14 < closes.length) (hmono : List.Chain' (· < ·) closes) :
    computeRsi closes 14 = 100 := by
  have hpos := rsiDiffs_pos closes hmono
  have hseed : (rsiSeed closes 14).2 = 0 := rsiSeed_loss_zero _ _ hpos
  have havg : (rsiAvgs closes 14).2 = 0 := by
    unfold rsiAvgs
    have h2 : rsiSeed closes 14 = ((rsiSeed closes 14).1, 0) := Prod.ext rfl hseed
    rw [h2]
    exact rsiSmooth_fold_loss_zero 14 _
      (fun d hd => hpos d (List.drop_subset _ _ hd)) _
  have hc : ¬ closes.length ≤ 14 := not_le.mpr hlen
  simp [computeRsi, hc, havg]

/-- Witness for the amended C4: a 15-bar strictly rising series. -/
theorem computeRsi_allgains_100_witness :
    computeRsi [1, 2, 3, 4, 5, 6, 7, 8, 9, 10, 11, 12, 13, 14, 15] 14 = 100 :=
  computeRsi_allgains_100 _ (by norm_num) (by norm_num [List.chain'_cons])

theorem jsRound_clamp_bounds (s : ℚ) :
    0 ≤ jsRound (clamp s 0 100) ∧ jsRound (clamp s 0 100) ≤ 100 := by
  have h0 : 0 ≤ clamp s 0 100 := le_min (by norm_num) (le_max_left 0 s)
  have h1 : clamp s 0 100 ≤ 100 := min_le_left _ _
  unfold jsRound
  rw [round_eq]
  constructor
  · refine Int.le_floor.mpr ?_
    push_cast
    linarith
  · have hfl : ((⌊clamp s 0 100 + 1 / 2⌋ : ℤ) : ℚ) ≤ clamp s 0 100 + 1 / 2 :=
      Int.floor_le _
    have h2 : ((⌊clamp s 0 100 + 1 / 2⌋ : ℤ) : ℚ) < 101 := by linarith
    exact Int.lt_add_one_iff.mp (by exact_mod_cast h2)

theorem buildSignalScore_int_bounds (x : ScoreInput) :
    ∃ n : ℤ, buildSignalScore x = (n : ℚ) ∧ 0 ≤ n ∧ n ≤ 100 := by
  unfold buildSignalScore
  exact ⟨_, rfl, (jsRound_clamp_bounds _).1, (jsRound_clamp_bounds _).2⟩

/-- C2: for every non-empty candle sequence (and every model of
`Math.sqrt`), the snapshot's `rsi14` lies in `[0, 100]` and its
`signalScore` is an integer in `[0, 100]`. -/
theorem deriveMetrics_rsi_score_bounds (sqrtQ : ℚ → ℚ) (candles : List Candle)
    (h : candles ≠ []) :
    0 ≤ (deriveMetrics sqrtQ candles).rsi14 ∧
    (deriveMetrics sqrtQ candles).rsi14 ≤ 100 ∧
    ∃ n : ℤ, (deriveMetrics sqrtQ candles).signalScore = (n : ℚ) ∧
      0 ≤ n ∧ n ≤ 100 := by
  have hne : ¬ candles.length = 0 := by
    simpa using h
  have hrsi : (deriveMetrics sqrtQ candles).rsi14 =
      computeRsi (candles.map Candle.close) 14 := by
    simp [deriveMetrics, hne]
  have hscore : ∃ x : ScoreInput,
      (deriveMetrics sqrtQ candles).signalScore = buildSignalScore x := by
    apply Exists.intro
    simp only [deriveMetrics, hne, if_false]
    rfl
  obtain ⟨x, hx⟩ := hscore
  rw [hrsi, hx]
  exact ⟨(computeRsi_mem_bounds _ 14).1, (computeRsi_mem_bounds _ 14).2,
    buildSignalScore_int_bounds x⟩

/-- Witness for C2: evaluated on a one-candle series. -/
theorem deriveMetrics_rsi_score_bounds_witness :
    0 ≤ (deriveMetrics id [⟨"", 1, 1, 1, 1, 1⟩]).rsi14 ∧
    (deriveMetrics id [⟨"", 1, 1, 1, 1, 1⟩]).rsi14 ≤ 100 ∧
    ∃ n : ℤ, (deriveMetrics id [⟨"", 1, 1, 1, 1, 1⟩]).signalScore = (n : ℚ) ∧
      0 ≤ n ∧ n ≤ 100 :=
  deriveMetrics_rsi_score_bounds id [⟨"", 1, 1, 1, 1, 1⟩] (by simp)

theorem zipWith_sub_mul_comm (ma mb : ℚ) :
    ∀ (a b : List ℚ),
      List.zipWith (fun x y => (x - ma) * (y - mb)) a b =
      List.zipWith (fun x y => (x - mb) * (y - ma)) b a := by
  intro a
  induction a with
  | nil => intro b; cases b <;> rfl
  | cons x t ih =>
    intro b
    cases b with
    | nil => rfl
    | cons y u =>
      simp only [List.zipWith_cons_cons]
      rw [mul_comm, ih u]

theorem pearsonNum_symm (a b : List ℚ) : pearsonNum a b = pearsonNum b a := by
  unfold pearsonNum
  rw [zipWith_sub_mul_comm]

theorem corrSliceLen_symm (sA sB : List ℚ) :
    corrSliceLen sA sB = corrSliceLen sB sA := by
  unfold corrSliceLen
  rw [min_comm sA.length sB.length]

theorem computeCorrelation_symm (sqrtQ : ℚ → ℚ) (sA sB : List ℚ) :
    computeCorrelation sqrtQ sA sB = computeCorrelation sqrtQ sB sA := by
  simp only [computeCorrelation]
  rw [min_comm sB.length sA.length, corrSliceLen_symm sB sA]
  by_cases h : min sA.length sB.length < 8
  · rw [if_pos h, if_pos h]
  · rw [if_neg h, if_neg h]
    rw [mul_comm (pearsonDenom (lastN (corrSliceLen sA sB) sB))
      (pearsonDenom (lastN (corrSliceLen sA sB) sA))]
    rw [pearsonNum_symm (lastN (corrSliceLen sA sB) sB)
      (lastN (corrSliceLen sA sB) sA)]

theorem corrEntry_symm (sqrtQ : ℚ → ℚ) (rm : String → List ℚ) (a b : String) :
    corrEntry sqrtQ rm a b = corrEntry sqrtQ rm b a := by
  unfold corrEntry
  by_cases h : a = b
  · subst h; rfl
  · rw [if_neg h, if_neg (Ne.symm h), computeCorrelation_symm]

/-- A cell `(x, y)` is written by one of the loop iterations in `ps` when
some pair in `ps` is `(x, y)` or `(y, x)`. -/
def hitBy (ps : List (String × String)) (x y : String) : Prop :=
  ∃ p ∈ ps, (p.1 = x ∧ p.2 = y) ∨ (p.1 = y ∧ p.2 = x)

instance instDecidableHitBy (ps : List (String × String)) (x y : String) :
    Decidable (hitBy ps x y) := by
  unfold hitBy
  exact List.decidableBEx _ ps

theorem corr_fold_eq (sqrtQ : ℚ → ℚ) (rm : String → List ℚ) :
    ∀ (ps : List (String × String)) (M : String → String → Option ℚ)
      (x y : String),
      (ps.foldl (corrPairStep sqrtQ rm) M) x y =
        if hitBy ps x y then some (corrEntry sqrtQ rm x y) else M x y := by
  intro ps
  induction ps with
  | nil =>
    intro M x y
    simp [hitBy]
  | cons p ps ih =>
    intro M x y
    rw [List.foldl_cons, ih]
    by_cases hps : hitBy ps x y
    · have hcons : hitBy (p :: ps) x y := by
        obtain ⟨q, hq, hor⟩ := hps
        exact ⟨q, List.mem_cons_of_mem _ hq, hor⟩
      rw [if_pos hps, if_pos hcons]
    · rw [if_neg hps]
      simp only [corrPairStep, updMatrix]
      by_cases h1 : x = p.2 ∧ y = p.1
      · rw [if_pos h1]
        have hhit : hitBy (p :: ps) x y :=
          ⟨p, List.mem_cons_self _ _, Or.inr ⟨h1.2.symm, h1.1.symm⟩⟩
        rw [if_pos hhit]
        obtain ⟨hx, hy⟩ := h1
        subst hx; subst hy
        exact congrArg some (corrEntry_symm sqrtQ rm p.1 p.2)
      · rw [if_neg h1]
        by_cases h2 : x = p.1 ∧ y = p.2
        · rw [if_pos h2]
          have hhit : hitBy (p :: ps) x y :=
            ⟨p, List.mem_cons_self _ _, Or.inl ⟨h2.1.symm, h2.2.symm⟩⟩
          rw [if_pos hhit]
          obtain ⟨hx, hy⟩ := h2
          subst hx; subst hy
          rfl
        · rw [if_neg h2]
          have hnohit : ¬ hitBy (p :: ps) x y := by
            rintro ⟨q, hq, hor⟩
            rcases List.mem_cons.mp hq with rfl | hq'
            · rcases hor with ⟨ha, hb⟩ | ⟨ha, hb⟩
              · exact h2 ⟨ha.symm, hb.symm⟩
              · exact h1 ⟨hb.symm, ha.symm⟩
            · exact hps ⟨q, hq', hor⟩
          rw [if_neg hnohit]

theorem mem_tickerPairs (ts : List String) (p : String × String) :
    p ∈ tickerPairs ts ↔
      ∃ i j, i < ts.length ∧ j < ts.length ∧ i ≤ j ∧
        p = (ts.getD i "", ts.getD j "") := by
  unfold tickerPairs
  simp only [List.mem_flatMap, List.mem_map, List.mem_range]
  constructor
  · rintro ⟨i, hi, j, hj, rfl⟩
    obtain ⟨hle, hlt⟩ := List.mem_range'_1.mp hj
    exact ⟨i, j, hi, by omega, hle, rfl⟩
  · rintro ⟨i, j, hi, hj, hij, rfl⟩
    exact ⟨i, hi, j, List.mem_range'_1.mpr ⟨hij, by omega⟩, rfl⟩

theorem hitBy_tickerPairs (ts : List String) (x y : String) :
    hitBy (tickerPairs ts) x y ↔ x ∈ ts ∧ y ∈ ts := by
  constructor
  · rintro ⟨p, hp, hor⟩
    obtain ⟨i, j, hi, hj, _, rfl⟩ := (mem_tickerPairs ts p).mp hp
    have hxi : ts.getD i "" ∈ ts := by
      rw [List.getD_eq_getElem _ _ hi]
      exact List.getElem_mem hi
    have hyj : ts.getD j "" ∈ ts := by
      rw [List.getD_eq_getElem _ _ hj]
      exact List.getElem_mem hj
    rcases hor with ⟨ha, hb⟩ | ⟨ha, hb⟩
    · replace ha : ts.getD i "" = x := ha
      replace hb : ts.getD j "" = y := hb
      exact ⟨ha ▸ hxi, hb ▸ hyj⟩
    · replace ha : ts.getD i "" = y := ha
      replace hb : ts.getD j "" = x := hb
      exact ⟨hb ▸ hyj, ha ▸ hxi⟩
  · rintro ⟨hx, hy⟩
    obtain ⟨i, hi, hix⟩ := List.mem_iff_getElem.mp hx
    obtain ⟨j, hj, hjy⟩ := List.mem_iff_getElem.mp hy
    rcases le_total i j with hij | hij
    · refine ⟨(ts.getD i "", ts.getD j ""),
        (mem_tickerPairs ts _).mpr ⟨i, j, hi, hj, hij, rfl⟩, Or.inl ⟨?_, ?_⟩⟩
      · show ts.getD i "" = x
        rw [List.getD_eq_getElem _ _ hi]; exact hix
      · show ts.getD j "" = y
        rw [List.getD_eq_getElem _ _ hj]; exact hjy
    · refine ⟨(ts.getD j "", ts.getD i ""),
        (mem_tickerPairs ts _).mpr ⟨j, i, hj, hi, hij, rfl⟩, Or.inr ⟨?_, ?_⟩⟩
      · show ts.getD j "" = y
        rw [List.getD_eq_getElem _ _ hj]; exact hjy
      · show ts.getD i "" = x
        rw [List.getD_eq_getElem _ _ hi]; exact hix

theorem buildCorrelationMatrix_eq (sqrtQ : ℚ → ℚ)
    (data : List (String × List Candle)) (x y : String) :
    buildCorrelationMatrix sqrtQ data x y =
      if x ∈ data.map Prod.fst ∧ y ∈ data.map Prod.fst
      then some (corrEntry sqrtQ (returnsOf data) x y) else none := by
  unfold buildCorrelationMatrix
  rw [corr_fold_eq]
  by_cases h : hitBy (tickerPairs (data.map Prod.fst)) x y
  · rw [if_pos h, if_pos ((hitBy_tickerPairs _ _ _).mp h)]
  · rw [if_neg h, if_neg (fun hc => h ((hitBy_tickerPairs _ _ _).mpr hc))]

/-- C3: the correlation matrix is symmetric — every cell `(x, y)` equals
the cell `(y, x)`, including absent cells — and every diagonal entry for a
ticker present in the input is exactly 1. -/
theorem buildCorrelationMatrix_symm_diag (sqrtQ : ℚ → ℚ)
    (data : List (String × List Candle)) :
    (∀ x y, buildCorrelationMatrix sqrtQ data x y =
      buildCorrelationMatrix sqrtQ data y x) ∧
    (∀ t ∈ data.map Prod.fst, buildCorrelationMatrix sqrtQ data t t = some 1) := by
  constructor
  · intro x y
    rw [buildCorrelationMatrix_eq, buildCorrelationMatrix_eq]
    by_cases h : x ∈ data.map Prod.fst ∧ y ∈ data.map Prod.fst
    · rw [if_pos h, if_pos ⟨h.2, h.1⟩, corrEntry_symm]
    · rw [if_neg h, if_neg (fun hc => h ⟨hc.2, hc.1⟩)]
  · intro t ht
    rw [buildCorrelationMatrix_eq, if_pos ⟨ht, ht⟩]
    unfold corrEntry
    rw [if_pos rfl]
    norm_num [roundTo2, round_eq]

/-- Witness for C3: a concrete two-ticker matrix has a unit diagonal entry
and a symmetric off-diagonal pair. -/
theorem buildCorrelationMatrix_symm_diag_witness :
    buildCorrelationMatrix id [("A", []), ("B", [])] "A" "A" = some 1 ∧
    buildCorrelationMatrix id [("A", []), ("B", [])] "A" "B" =
      buildCorrelationMatrix id [("A", []), ("B", [])] "B" "A" :=
  ⟨(buildCorrelationMatrix_symm_diag id _).2 "A" (by simp),
   (buildCorrelationMatrix_symm_diag id _).1 "A" "B"⟩

theorem pearsonDenom_nonneg (a : List ℚ) : 0 ≤ pearsonDenom a := by
  unfold pearsonDenom
  refine List.sum_nonneg ?_
  intro x hx
  simp only [List.mem_map] at hx
  obtain ⟨v, _, rfl⟩ := hx
  exact mul_self_nonneg _

/-- C6: under any model of `Math.sqrt` that vanishes exactly at 0 on
non-negative inputs, every off-diagonal cell for tickers present in the
input is the rounded `computeCorrelation` of their daily-return series;
`computeCorrelation` returns 0 when fewer than 8 overlapping observations
exist and when the Pearson denominator is 0, and otherwise equals the
Pearson quotient over the last at most 90 overlapping observations; and
every stored coefficient is rounded to 2 decimal places (an integer
multiple of 1/100). -/
theorem correlation_policy (sqrtQ : ℚ → ℚ)
    (hsq : ∀ q : ℚ, 0 ≤ q → (sqrtQ q = 0 ↔ q = 0))
    (data : List (String × List Candle)) :
    (∀ a b, a ∈ data.map Prod.fst → b ∈ data.map Prod.fst → a ≠ b →
      buildCorrelationMatrix sqrtQ data a b =
        some (roundTo2 (computeCorrelation sqrtQ (returnsOf data a)
          (returnsOf data b)))) ∧
    (∀ sA sB : List ℚ, min sA.length sB.length < 8 →
      computeCorrelation sqrtQ sA sB = 0) ∧
    (∀ sA sB : List ℚ, 8 ≤ min sA.length sB.length →
      pearsonDenom (corrSlices sA sB).1 * pearsonDenom (corrSlices sA sB).2 = 0 →
      computeCorrelation sqrtQ sA sB = 0) ∧
    (∀ sA sB : List ℚ, 8 ≤ min sA.length sB.length →
      pearsonDenom (corrSlices sA sB).1 * pearsonDenom (corrSlices sA sB).2 ≠ 0 →
      computeCorrelation sqrtQ sA sB =
        pearsonNum (corrSlices sA sB).1 (corrSlices sA sB).2 /
          sqrtQ (pearsonDenom (corrSlices sA sB).1 *
            pearsonDenom (corrSlices sA sB).2)) ∧
    (∀ x y v, buildCorrelationMatrix sqrtQ data x y = some v →
      ∃ k : ℤ, v = (k : ℚ) / 100) := by
  have hden : ∀ sA sB : List ℚ,
      0 ≤ pearsonDenom (corrSlices sA sB).1 * pearsonDenom (corrSlices sA sB).2 :=
    fun sA sB => mul_nonneg (pearsonDenom_nonneg _) (pearsonDenom_nonneg _)
  refine ⟨?_, ?_, ?_, ?_, ?_⟩
  · intro a b ha hb hab
    rw [buildCorrelationMatrix_eq, if_pos ⟨ha, hb⟩]
    unfold corrEntry
    rw [if_neg hab]
  · intro sA sB h
    simp only [computeCorrelation]
    rw [if_pos h]
  · intro sA sB h hzero
    simp only [computeCorrelation]
    rw [if_neg (not_lt.mpr h)]
    have hs : sqrtQ (pearsonDenom (lastN (corrSliceLen sA sB) sA) *
        pearsonDenom (lastN (corrSliceLen sA sB) sB)) = 0 :=
      (hsq _ (hden sA sB)).mpr hzero
    rw [if_pos hs]
  · intro sA sB h hnz
    simp only [computeCorrelation]
    rw [if_neg (not_lt.mpr h)]
    have hs : ¬ sqrtQ (pearsonDenom (lastN (corrSliceLen sA sB) sA) *
        pearsonDenom (lastN (corrSliceLen sA sB) sB)) = 0 :=
      fun h0 => hnz ((hsq _ (hden sA sB)).mp h0)
    rw [if_neg hs]
    rfl
  · intro x y v h
    rw [buildCorrelationMatrix_eq] at h
    by_cases hxy : x ∈ data.map Prod.fst ∧ y ∈ data.map Prod.fst
    · rw [if_pos hxy] at h
      refine ⟨round ((if x = y then (1 : ℚ) else
        computeCorrelation sqrtQ (returnsOf data x) (returnsOf data y)) * 100), ?_⟩
      rw [← Option.some_inj.mp h]
      rfl
    · rw [if_neg hxy] at h
      exact absurd h (by simp)

/-- Witness for C6: a concrete two-ticker matrix entry, and the
short-series fallback to 0, with `sqrtQ = id` (which vanishes exactly at
0). -/
theorem correlation_policy_witness :
    buildCorrelationMatrix id [("A", []), ("B", [])] "A" "B" =
      some (roundTo2 (computeCorrelation id (returnsOf [("A", []), ("B", [])] "A")
        (returnsOf [("A", []), ("B", [])] "B"))) ∧
    computeCorrelation id [1, 2, 3] [4, 5, 6] = 0 :=
  ⟨(correlation_policy id (fun _ _ => Iff.rfl) _).1 "A" "B"
      (by simp) (by simp) (by decide),
   (correlation_policy id (fun _ _ => Iff.rfl)
      ([] : List (String × List Candle))).2.1 [1, 2, 3] [4, 5, 6]
      (by norm_num)⟩

end StockVision
